import Mathlib

/-!
Shallow embedding of the `clap-derive` schema-resolution core
(`src/clap-derive-internals/src/lib.rs`), for checking the natural-language
specification against the code.

The embedding mirrors the `syn 0.11` data model exactly as far as the
embedded functions inspect it: constructors and fields that the functions
never destructure are collapsed to opaque tags.
-/

namespace ClapDerive

/-- `syn::StrStyle` — only `Cooked` vs the rest matters to the code. -/
inductive StrStyle : Type where
  | cooked
  | raw
deriving DecidableEq, Repr

/-- `syn::Lit` — the code only ever builds and matches `Lit::Str`; other
literal kinds are carried opaquely. -/
inductive Lit : Type where
  | str (value : String) (style : StrStyle)
  | intLit (n : Nat)
  | boolLit (b : Bool)
deriving DecidableEq, Repr

mutual

/-- `syn::Ty`.  `path` is `syn::Ty::Path(qself, Path { segments, .. })`;
the code matches only on whether the qualified-self is `None`, so the
qself payload is reduced to a `Bool` (`true` = `Some(..)`).  `syn::Path`
always carries at least one segment (`segs.last().unwrap()` in the source
cannot panic), so segments are embedded as a head plus a tail list.
Non-path type constructors are never destructured by the code. -/
inductive SynTy : Type where
  | path (hasQself : Bool) (seg0 : PathSegment) (rest : List PathSegment)
  | rptr
  | tup
  | slice
  | bareFn
  | never

/-- `syn::PathSegment`: identifier plus parameters. -/
inductive PathSegment : Type where
  | mk (ident : String) (parameters : PathParameters)

/-- `syn::PathParameters`: angle-bracketed data keeps only its `types`
vector (lifetimes and bindings are never inspected). -/
inductive PathParameters : Type where
  | angleBracketed (types : List SynTy)
  | parenthesized

end

/-- `segments.last()` of the nonempty segment list `seg0 :: rest`. -/
def lastSeg (seg0 : PathSegment) (rest : List PathSegment) : PathSegment :=
  rest.getLast?.getD seg0

/-- The `Ty` classification enum of `lib.rs` (lines 319–326). -/
inductive Ty : Type where
  | bool
  | u64
  | vec
  | option
  | other
deriving DecidableEq, Repr

/-- `fn ty(t: &syn::Ty) -> Ty` (lib.rs lines 328–340): classify a type by
the identifier of the last segment of a qself-free path; everything else
is `Ty::Other`. -/
def ty (t : SynTy) : Ty :=
  match t with
  | SynTy.path false seg0 rest =>
    match lastSeg seg0 rest with
    | PathSegment.mk ident _ =>
      if ident = "bool" then Ty.bool
      else if ident = "u64" then Ty.u64
      else if ident = "Option" then Ty.option
      else if ident = "Vec" then Ty.vec
      else Ty.other
  | _ => Ty.other

/-- `fn sub_type(t: &syn::Ty) -> Option<&syn::Ty>` (lib.rs lines 342–355):
the first angle-bracketed type parameter of the last segment of a
qself-free path, when that parameter list is nonempty. -/
def sub_type (t : SynTy) : Option SynTy :=
  match t with
  | SynTy.path false seg0 rest =>
    match lastSeg seg0 rest with
    | PathSegment.mk _ (PathParameters.angleBracketed types) =>
      match types with
      | [] => none
      | t0 :: _ => some t0
    | PathSegment.mk _ PathParameters.parenthesized => none
  | _ => none

mutual

/-- `syn::MetaItem`. -/
inductive MetaItem : Type where
  | word (ident : String)
  | list (ident : String) (items : List NestedMetaItem)
  | nameValue (ident : String) (lit : Lit)

/-- `syn::NestedMetaItem`. -/
inductive NestedMetaItem : Type where
  | metaItem (m : MetaItem)
  | literal (l : Lit)

end

/-- `syn::AttrStyle` — never inspected by the embedded functions. -/
inductive AttrStyle : Type where
  | outer
  | inner
deriving DecidableEq, Repr

/-- `syn::Attribute` (the `style`, `value` and `is_sugared_doc` fields). -/
structure Attribute : Type where
  style : AttrStyle
  value : MetaItem
  is_sugared_doc : Bool

/-- The `AttrSource` enum of `lib.rs` (line 358). -/
inductive AttrSource : Type where
  | struct
  | field
deriving DecidableEq, Repr

/-- Rust `str::trim_left_matches(pat)` on character lists: repeatedly
remove the prefix `pat` while it matches.  The fuel argument is the input
length, which suffices because each nonempty strip removes at least one
character. -/
def stripRep (pat : List Char) : Nat → List Char → List Char
  | 0, s => s
  | n + 1, s =>
    if pat ≠ [] ∧ pat.isPrefixOf s then stripRep pat n (s.drop pat.length) else s

/-- `trim_left_matches` entry point. -/
def trimLeftMatches (s : List Char) (pat : String) : List Char :=
  stripRep pat.data s.length s

/-- Rust `str::trim` on character lists: drop whitespace at both ends. -/
def trimChars (s : List Char) : List Char :=
  ((s.dropWhile Char.isWhitespace).reverse.dropWhile Char.isWhitespace).reverse

/-- The per-line doc-comment normalization of `extract_attrs`
(lib.rs lines 392–396): strip the comment-marker prefixes, then trim. -/
def stripDocText (s : String) : String :=
  String.mk (trimChars
    (trimLeftMatches
      (trimLeftMatches (trimLeftMatches (trimLeftMatches s.data "//!") "///")
        "/*!") "/**"))

/-- The first closure of the `settings_attrs` iterator (lib.rs lines
375–377): the nested item list of a `clap(...)` list attribute. -/
def clapList (attr : Attribute) : Option (List NestedMetaItem) :=
  match attr.value with
  | MetaItem.list i v => if i = "clap" then some v else none
  | _ => none

/-- The second closure of the `settings_attrs` iterator (lib.rs lines
378–381): keep a nested `name = value` meta item as a pair. -/
def nameValueOf (mi : NestedMetaItem) : Option (String × Lit) :=
  match mi with
  | NestedMetaItem.metaItem (MetaItem.nameValue i l) => some (i, l)
  | _ => none

/-- The `settings_attrs` iterator of `extract_attrs` (lib.rs lines
374–382): take the nested items of every `clap(...)` list attribute, and
keep the `name = value` items in order. -/
def settingsAttrs (attrs : List Attribute) : List (String × Lit) :=
  ((attrs.filterMap clapList).map fun v => v.filterMap nameValueOf).flatten

/-- The doc-comment closure of `extract_attrs` (lib.rs lines 385–401):
the normalized text of a sugared-doc attribute `doc = "<cooked str>"`. -/
def docOf (attr : Attribute) : Option String :=
  match attr with
  | ⟨_, MetaItem.nameValue name (Lit.str value StrStyle.cooked), true⟩ =>
    if name = "doc" then some (stripDocText value) else none
  | _ => none

/-- The `doc_comments` vector of `extract_attrs` (lib.rs lines 384–402):
one normalized string per sugared-doc attribute. -/
def docComments (attrs : List Attribute) : List String :=
  attrs.filterMap docOf

/-- The doc-derived entry of `extract_attrs` (lib.rs lines 404–414): when
at least one doc line was collected, the joined text keyed `about` for a
`Struct` source or `help` for a `Field` source. -/
def docEntryList (attrs : List Attribute) (attr_source : AttrSource) :
    List (String × Lit) :=
  let docs := docComments attrs
  if docs.isEmpty then []
  else
    match attr_source with
    | AttrSource.struct =>
      [("about", Lit.str (String.intercalate " " docs) StrStyle.cooked)]
    | AttrSource.field =>
      [("help", Lit.str (String.intercalate " " docs) StrStyle.cooked)]

/-- `fn extract_attrs(attrs, attr_source)` (lib.rs lines 373–417): the
doc-derived entry chained with the explicit `clap(...)` entries in
declaration order. -/
def extract_attrs (attrs : List Attribute) (attr_source : AttrSource) :
    List (String × Lit) :=
  docEntryList attrs attr_source ++ settingsAttrs attrs

/-- `fn from_attr_or_env(attrs, key, env)` (lib.rs lines 419–426): the
last attribute entry whose key matches, else the ambient environment
variable, else the empty string.  The ambient environment snapshot is
passed explicitly as a partial map. -/
def from_attr_or_env (attrs : List (String × Lit)) (key : String)
    (envVar : String) (env : String → Option String) : Lit :=
  let dflt := (env envVar).getD ""
  match (attrs.filter fun p => p.1 = key).getLast? with
  | some p => p.2
  | none => Lit.str dflt StrStyle.cooked

/-- The Cardinality classification of spec §3 / §4.2. -/
inductive Cardinality : Type where
  | flag
  | counter
  | optional
  | list
  | required
deriving DecidableEq, Repr

/-- Modelled from the spec: the Cardinality dispatch of §4.2 (its
implementation lives in the `clap_app` module, which is absent from the
sources; only the classifier `ty` is present).  Without a custom parser
override the five `Ty` classes map to the five cardinalities; with an
override, rules 1–2 are suppressed (`bool` and `u64` are not treated
specially, per the source documentation table at lib.rs lines 259–266)
and only `Option`/`Vec`/other apply. -/
def cardinality (customParser : Bool) (t : SynTy) : Cardinality :=
  if customParser then
    match ty t with
    | Ty.option => Cardinality.optional
    | Ty.vec => Cardinality.list
    | _ => Cardinality.required
  else
    match ty t with
    | Ty.bool => Cardinality.flag
    | Ty.u64 => Cardinality.counter
    | Ty.option => Cardinality.optional
    | Ty.vec => Cardinality.list
    | Ty.other => Cardinality.required

/-- The `Parser` enum of `lib.rs` (lines 361–371). -/
inductive Parser : Type where
  | fromStr
  | tryFromStr
  | fromOsStr
  | tryFromOsStr
deriving DecidableEq, Repr

/-- The CompileError taxonomy of spec §7. -/
inductive CompileError : Type where
  | attributeParse
  | unsupportedType
  | missingParserFunction
  | duplicateArgument
  | multipleSubcommands
  | cyclicSchema
deriving DecidableEq, Repr

/-- The default conversion function of each parser kind, from the source
documentation table at lib.rs lines 252–257: `from_str` and `from_os_str`
default to `::std::convert::From::from`, `try_from_str` to
`::std::str::FromStr::from_str`, and `try_from_os_str` has no default. -/
def defaultParserFn : Parser → Option String
  | Parser.fromStr => some "::std::convert::From::from"
  | Parser.tryFromStr => some "::std::str::FromStr::from_str"
  | Parser.fromOsStr => some "::std::convert::From::from"
  | Parser.tryFromOsStr => none

/-- Modelled from the spec: the Parser-Function Resolver of §4.3 for an
explicit `parse(kind = "fn")` directive (its implementation lives in the
absent `clap_app` module).  An explicit function name is used as given; an
omitted name falls back to the kind's default from the source table, and a
kind with no default fails with `MissingParserFunction`. -/
def resolveParserFn (kind : Parser) (explicitFn : Option String) :
    Except CompileError String :=
  match explicitFn with
  | some f => Except.ok f
  | none =>
    match defaultParserFn kind with
    | some f => Except.ok f
    | none => Except.error CompileError.missingParserFunction

/-- One field or variant of a schema item (spec §3 Member), as compile
consumes it: identifier, declared type, raw attributes, and the optional
explicit parse directive. -/
structure Member : Type where
  ident : String
  tySig : SynTy
  attrs : List Attribute
  parseDirective : Option (Parser × Option String)

/-- The structural description of one schema item handed to `compile`
(spec §6 Input). -/
structure SchemaInput : Type where
  ident : String
  isEnum : Bool
  attrs : List Attribute
  members : List Member

/-- A member after resolution (part of the IR of spec §2). -/
structure ResolvedMember : Type where
  ident : String
  attrs : List (String × Lit)
  card : Cardinality
  parserFn : Option String
deriving DecidableEq, Repr

/-- The fully resolved item-level output of `compile` (spec §6 Output):
the four metadata setters plus the resolved members. -/
structure GeneratedSpec : Type where
  name : Lit
  version : Lit
  author : Lit
  about : Lit
  itemAttrs : List (String × Lit)
  members : List ResolvedMember
deriving DecidableEq, Repr

/-- Modelled from the spec: per-member resolution (§4.2–§4.3; the driver
lives in the absent `clap_app` module).  Attributes are resolved at member
level, cardinality by type shape, and the conversion function by the parse
directive — none for Flag/Counter without a directive, and the implicit
`TryFromStr` standard textual constructor otherwise. -/
def resolveMember (m : Member) : Except CompileError ResolvedMember :=
  let rattrs := extract_attrs m.attrs AttrSource.field
  match m.parseDirective with
  | some (kind, fn) =>
    (resolveParserFn kind fn).map fun f =>
      ⟨m.ident, rattrs, cardinality true m.tySig, some f⟩
  | none =>
    let card := cardinality false m.tySig
    Except.ok ⟨m.ident, rattrs, card,
      if card = Cardinality.flag ∨ card = Cardinality.counter then none
      else some "::std::str::FromStr::from_str"⟩

/-- The ambient environment keys consulted for the metadata defaults
(spec §6; lib.rs doc lines 34–38: crate name, version, author and
description given by Cargo). -/
def consultedEnvKeys : List String :=
  ["CARGO_PKG_NAME", "CARGO_PKG_VERSION", "CARGO_PKG_AUTHORS",
   "CARGO_PKG_DESCRIPTION"]

/-- Modelled from the spec: the single pure compilation pass
`compile(schema, env)` of §3/§5 over one schema item (the driver lives in
the absent `clap_app` module; it composes the functions embedded above).
The ambient environment is an explicit read-only snapshot. -/
def compile (s : SchemaInput) (env : String → Option String) :
    Except CompileError GeneratedSpec :=
  let iattrs := extract_attrs s.attrs AttrSource.struct
  (s.members.mapM resolveMember).map fun ms =>
    { name := from_attr_or_env iattrs "name" "CARGO_PKG_NAME" env
      version := from_attr_or_env iattrs "version" "CARGO_PKG_VERSION" env
      author := from_attr_or_env iattrs "author" "CARGO_PKG_AUTHORS" env
      about := from_attr_or_env iattrs "about" "CARGO_PKG_DESCRIPTION" env
      itemAttrs := iattrs
      members := ms }

/-- One node of the schema arena used by the Subcommand Tree Builder
(spec §4.4 and design note §9: "an arena of SchemaItem nodes indexed by
integer id").  `carrier` is the subcommand-carrier link — at most one per
item, per the §3 invariant. -/
structure SchemaItem : Type where
  isCommandSet : Bool
  carrier : Option Nat
deriving DecidableEq, Repr

/-- The arena of schema items, indexed by integer identity. -/
abbrev Arena : Type := List SchemaItem

/-- The subcommand-carrier link out of item `i`, when `i` names an item
that carries one. -/
def carrierOf (arena : Arena) (i : Nat) : Option Nat :=
  arena[i]?.bind SchemaItem.carrier

/-- Following the carrier links `k` times from item `i`. -/
def stepN (arena : Arena) : Nat → Nat → Option Nat
  | 0, i => some i
  | k + 1, i =>
    match carrierOf arena i with
    | some j => stepN arena k j
    | none => none

/-- The nested subcommand specification built for one item: the item id
plus its (at most one) expanded carrier. -/
inductive SubTree : Type where
  | node (id : Nat) (sub : Option SubTree)

/-- Modelled from the spec: the recursive expansion of §4.4 with the
visited-set of SchemaItem identities threaded through the recursion (no
implementation is present in the sources).  An id already in the visited
set is a direct or transitive self-reference and fails with
`CyclicSchema`.  The explicit fuel makes the recursion structural; `none`
marks fuel exhaustion, which the theorems below show the top-level entry
point never produces. -/
def buildAux (arena : Arena) :
    Nat → List Nat → Nat → Option (Except CompileError SubTree)
  | 0, _, _ => none
  | fuel + 1, visited, i =>
    if i ∈ visited then some (Except.error CompileError.cyclicSchema)
    else
      match arena[i]? with
      | none => some (Except.ok (SubTree.node i none))
      | some item =>
        match item.carrier with
        | none => some (Except.ok (SubTree.node i none))
        | some j =>
          match buildAux arena fuel (i :: visited) j with
          | none => none
          | some (Except.error e) => some (Except.error e)
          | some (Except.ok t) => some (Except.ok (SubTree.node i (some t)))

/-- Modelled from the spec: the Subcommand Tree Builder entry point,
started with an empty visited set and fuel one more than the number of
distinct SchemaItems (§5: recursion depth is bounded by the number of
distinct SchemaItems). -/
def buildTree (arena : Arena) (root : Nat) :
    Option (Except CompileError SubTree) :=
  buildAux arena (arena.length + 1) [] root

/-- A nested meta item that the `settings_attrs` chain keeps: a
`name = value` pair. -/
def isNameValueItem (mi : NestedMetaItem) : Bool :=
  match mi with
  | NestedMetaItem.metaItem (MetaItem.nameValue _ _) => true
  | _ => false

/-- Remove the attribute material that `extract_attrs` does not
recognise: keep sugared `doc = "<cooked str>"` attributes, keep
`clap(...)` lists with their non-`name = value` items dropped, and drop
every other attribute.  Used to state that unrecognised (malformed)
attribute material is silently ignored. -/
def scrub (a : Attribute) : Option Attribute :=
  match a with
  | ⟨st, MetaItem.list i v, d⟩ =>
    if i = "clap" then
      some ⟨st, MetaItem.list i (v.filter isNameValueItem), d⟩
    else none
  | ⟨st, MetaItem.nameValue n (Lit.str s StrStyle.cooked), true⟩ =>
    if n = "doc" then
      some ⟨st, MetaItem.nameValue n (Lit.str s StrStyle.cooked), true⟩
    else none
  | _ => none

/-! ## Theorems -/

/-- C1: for every Member without a custom parser override, the Type
Classifier assigns exactly one Cardinality by the shape of the declared
type: a boolean-shaped type (classified `Ty.bool`) yields Flag, a
`u64`-shaped type yields Counter, an `Option`-wrapper shape yields
Optional, a `Vec`-wrapper shape yields List, and any other type yields
Required.  Exactly one cardinality arises because `cardinality` is a total
function of the type. -/
theorem c1_cardinality_by_shape (t : SynTy) :
    (ty t = Ty.bool → cardinality false t = Cardinality.flag) ∧
    (ty t = Ty.u64 → cardinality false t = Cardinality.counter) ∧
    (ty t = Ty.option → cardinality false t = Cardinality.optional) ∧
    (ty t = Ty.vec → cardinality false t = Cardinality.list) ∧
    (ty t = Ty.other → cardinality false t = Cardinality.required) := by
  refine ⟨?_, ?_, ?_, ?_, ?_⟩ <;> intro h <;> simp [cardinality, h]

/-- C1 witness: the plain path type `bool` is boolean-shaped and resolves
to Flag. -/
theorem c1_cardinality_by_shape_witness :
    ty (SynTy.path false (PathSegment.mk "bool"
      (PathParameters.angleBracketed [])) []) = Ty.bool ∧
    cardinality false (SynTy.path false (PathSegment.mk "bool"
      (PathParameters.angleBracketed [])) []) = Cardinality.flag :=
  ⟨rfl, (c1_cardinality_by_shape _).1 rfl⟩

/-- C2 counterexample: on the two-parameter generic shape
`Result<T, E>`, `sub_type` silently returns the first type parameter `T`,
and member resolution succeeds — no `UnsupportedType` failure occurs,
contrary to the claim. -/
theorem c2_counterexample :
    sub_type (SynTy.path false (PathSegment.mk "Result"
        (PathParameters.angleBracketed
          [SynTy.path false (PathSegment.mk "T"
            (PathParameters.angleBracketed [])) [],
           SynTy.path false (PathSegment.mk "E"
            (PathParameters.angleBracketed [])) []])) [])
      = some (SynTy.path false (PathSegment.mk "T"
          (PathParameters.angleBracketed [])) []) ∧
    resolveMember ⟨"m", SynTy.path false (PathSegment.mk "Result"
        (PathParameters.angleBracketed
          [SynTy.path false (PathSegment.mk "T"
            (PathParameters.angleBracketed [])) [],
           SynTy.path false (PathSegment.mk "E"
            (PathParameters.angleBracketed [])) []])) [], [], none⟩
      = Except.ok ⟨"m", [], Cardinality.required,
          some "::std::str::FromStr::from_str"⟩ :=
  ⟨rfl, rfl⟩

/-- C2 amended: on a multi-parameter (or any nonempty-parameter) generic
shape, `sub_type` silently returns the *first* type parameter of the last
segment; member resolution never fails with `UnsupportedType` (no such
error is ever produced). -/
theorem c2_amended_first_type_parameter (seg0 : PathSegment)
    (rest : List PathSegment) (i : String) (t0 : SynTy) (ts : List SynTy)
    (h : lastSeg seg0 rest
      = PathSegment.mk i (PathParameters.angleBracketed (t0 :: ts))) :
    sub_type (SynTy.path false seg0 rest) = some t0 ∧
    ∀ m : Member, resolveMember m ≠ Except.error CompileError.unsupportedType := by
  constructor
  · simp [sub_type, h]
  · intro m
    match hd : m.parseDirective with
    | none => simp [resolveMember, hd]
    | some (k, some f) => simp [resolveMember, hd, resolveParserFn, Except.map]
    | some (k, none) =>
      cases k <;>
        simp [resolveMember, hd, resolveParserFn, defaultParserFn, Except.map]

/-- C2 amended witness: `Result<T, E>` instantiation. -/
theorem c2_amended_first_type_parameter_witness :
    sub_type (SynTy.path false (PathSegment.mk "Result"
        (PathParameters.angleBracketed
          [SynTy.path false (PathSegment.mk "T"
            (PathParameters.angleBracketed [])) [],
           SynTy.path false (PathSegment.mk "E"
            (PathParameters.angleBracketed [])) []])) [])
      = some (SynTy.path false (PathSegment.mk "T"
          (PathParameters.angleBracketed [])) []) :=
  (c2_amended_first_type_parameter (PathSegment.mk "Result"
    (PathParameters.angleBracketed
      [SynTy.path false (PathSegment.mk "T"
        (PathParameters.angleBracketed [])) [],
       SynTy.path false (PathSegment.mk "E"
        (PathParameters.angleBracketed [])) []])) [] "Result"
    (SynTy.path false (PathSegment.mk "T"
      (PathParameters.angleBracketed [])) [])
    [SynTy.path false (PathSegment.mk "E"
      (PathParameters.angleBracketed [])) []] rfl).1

/-- C3 counterexample: a single bare doc line `///` yields the empty
concatenated text, yet `extract_attrs` still contributes a (first)
`about` entry with the empty value — refuting the claimed "if and only if
the result is non-empty". -/
theorem c3_counterexample :
    String.intercalate " " (docComments
      [⟨AttrStyle.outer, MetaItem.nameValue "doc"
        (Lit.str "///" StrStyle.cooked), true⟩]) = "" ∧
    extract_attrs
      [⟨AttrStyle.outer, MetaItem.nameValue "doc"
        (Lit.str "///" StrStyle.cooked), true⟩] AttrSource.struct
      = [("about", Lit.str "" StrStyle.cooked)] :=
  ⟨rfl, rfl⟩

/-- C3 amended: comment markers are stripped and each *line* is trimmed,
the lines are concatenated with single spaces, and the `about`
(ItemLevel) or `help` (MemberLevel) entry is contributed, as the first
entry, if and only if at least one doc-comment line is present — even
when every line is empty after trimming. -/
theorem c3_amended_doc_entry (attrs : List Attribute) (src : AttrSource) :
    (docComments attrs = [] → extract_attrs attrs src = settingsAttrs attrs) ∧
    (docComments attrs ≠ [] →
      extract_attrs attrs src
        = ((match src with
            | AttrSource.struct => "about"
            | AttrSource.field => "help"),
           Lit.str (String.intercalate " " (docComments attrs))
             StrStyle.cooked) :: settingsAttrs attrs) := by
  constructor
  · intro h
    simp [extract_attrs, docEntryList, h]
  · intro h
    cases src <;>
      simp [extract_attrs, docEntryList, List.isEmpty_iff, h]

/-- C3 amended witness: one real doc line on a field contributes a
leading `help` entry with the stripped and trimmed text. -/
theorem c3_amended_doc_entry_witness :
    extract_attrs
      [⟨AttrStyle.outer, MetaItem.nameValue "doc"
        (Lit.str "/// Hello" StrStyle.cooked), true⟩] AttrSource.field
      = [("help", Lit.str "Hello" StrStyle.cooked)] := by
  have h := (c3_amended_doc_entry
    [⟨AttrStyle.outer, MetaItem.nameValue "doc"
      (Lit.str "/// Hello" StrStyle.cooked), true⟩] AttrSource.field).2
    (by decide)
  exact h.trans rfl

/-- C4: explicit attribute entries appear in the resolved list, in
declaration order, as a suffix after the doc-derived entry, and lookup is
last-write-wins: whenever the explicit entries contain a last entry for
`key`, that entry's value is returned — in particular an explicit
`about`/`help` entry overrides the doc-derived one. -/
theorem c4_explicit_overrides_doc (attrs : List Attribute)
    (src : AttrSource) (key envVar : String) (env : String → Option String)
    (q : String × Lit)
    (h : ((settingsAttrs attrs).filter fun p => p.1 = key).getLast?
      = some q) :
    settingsAttrs attrs <:+ extract_attrs attrs src ∧
    from_attr_or_env (extract_attrs attrs src) key envVar env = q.2 := by
  have hne : ((settingsAttrs attrs).filter fun p => p.1 = key) ≠ [] := by
    intro hnil
    rw [hnil] at h
    exact Option.noConfusion h
  constructor
  · exact List.suffix_append _ _
  · unfold from_attr_or_env extract_attrs
    rw [List.filter_append, List.getLast?_append_of_ne_nil _ hne, h]

/-- C4 witness: with both a doc comment and an explicit `about` on the
same struct, lookup returns the explicit value. -/
theorem c4_explicit_overrides_doc_witness :
    from_attr_or_env (extract_attrs
      [⟨AttrStyle.outer, MetaItem.nameValue "doc"
        (Lit.str "/// doc text" StrStyle.cooked), true⟩,
       ⟨AttrStyle.outer, MetaItem.list "clap"
        [NestedMetaItem.metaItem (MetaItem.nameValue "about"
          (Lit.str "explicit" StrStyle.cooked))], false⟩]
      AttrSource.struct) "about" "CARGO_PKG_DESCRIPTION"
      (fun _ => some "envdesc") = Lit.str "explicit" StrStyle.cooked := by
  have h := (c4_explicit_overrides_doc
    [⟨AttrStyle.outer, MetaItem.nameValue "doc"
      (Lit.str "/// doc text" StrStyle.cooked), true⟩,
     ⟨AttrStyle.outer, MetaItem.list "clap"
      [NestedMetaItem.metaItem (MetaItem.nameValue "about"
        (Lit.str "explicit" StrStyle.cooked))], false⟩]
    AttrSource.struct "about" "CARGO_PKG_DESCRIPTION"
    (fun _ => some "envdesc")
    ("about", Lit.str "explicit" StrStyle.cooked) rfl).2
  exact h

/-- C5: `from_attr_or_env` returns the last entry matching `key`; with no
match it returns the ambient environment snapshot's value for `envVar`;
and with that also absent it returns the empty string. -/
theorem c5_attr_env_fallback (attrs : List (String × Lit))
    (key envVar : String) (env : String → Option String) :
    (∀ q, (attrs.filter fun p => p.1 = key).getLast? = some q →
      from_attr_or_env attrs key envVar env = q.2) ∧
    (∀ v, (attrs.filter fun p => p.1 = key).getLast? = none →
      env envVar = some v →
      from_attr_or_env attrs key envVar env = Lit.str v StrStyle.cooked) ∧
    ((attrs.filter fun p => p.1 = key).getLast? = none → env envVar = none →
      from_attr_or_env attrs key envVar env
        = Lit.str "" StrStyle.cooked) := by
  refine ⟨?_, ?_, ?_⟩
  · intro q hq
    unfold from_attr_or_env
    rw [hq]
  · intro v h0 hv
    unfold from_attr_or_env
    rw [h0, hv]
    rfl
  · intro h0 hv
    unfold from_attr_or_env
    rw [h0, hv]
    rfl

/-- C5 witness: the three fallback stages at concrete inputs. -/
theorem c5_attr_env_fallback_witness :
    from_attr_or_env [("about", Lit.str "a" StrStyle.cooked)] "about" "E"
      (fun _ => none) = Lit.str "a" StrStyle.cooked ∧
    from_attr_or_env [] "about" "E"
      (fun k => if k = "E" then some "env" else none)
      = Lit.str "env" StrStyle.cooked ∧
    from_attr_or_env [] "about" "E" (fun _ => none)
      = Lit.str "" StrStyle.cooked :=
  ⟨(c5_attr_env_fallback _ _ _ _).1
      ("about", Lit.str "a" StrStyle.cooked) rfl,
   (c5_attr_env_fallback _ _ _ _).2.1 "env" rfl rfl,
   (c5_attr_env_fallback _ _ _ _).2.2 rfl rfl⟩

/-- Scrubbing commutes with the doc-comment closure: the doc text an
attribute contributes is unchanged by dropping unrecognised material. -/
theorem scrub_docOf (a : Attribute) : (scrub a).bind docOf = docOf a := by
  obtain ⟨st, val, d⟩ := a
  cases val with
  | word i => rfl
  | list i v =>
    by_cases hi : i = "clap" <;> simp [scrub, docOf, hi]
  | nameValue n l =>
    cases l with
    | str s style =>
      cases style with
      | cooked =>
        cases d with
        | true => by_cases hn : n = "doc" <;> simp [scrub, docOf, hn]
        | false => rfl
      | raw => rfl
    | intLit k => rfl
    | boolLit b => rfl

/-- Scrubbing turns the `clap(...)` item list of an attribute into its
filtered form, and contributes nothing otherwise. -/
theorem scrub_clapList (a : Attribute) :
    (scrub a).bind clapList
      = (clapList a).map fun v => v.filter isNameValueItem := by
  obtain ⟨st, val, d⟩ := a
  cases val with
  | word i => rfl
  | list i v =>
    by_cases hi : i = "clap" <;> simp [scrub, clapList, hi]
  | nameValue n l =>
    cases l with
    | str s style =>
      cases style with
      | cooked =>
        cases d with
        | true => by_cases hn : n = "doc" <;> simp [scrub, clapList, hn]
        | false => rfl
      | raw => rfl
    | intLit k => rfl
    | boolLit b => rfl

/-- Dropping the non-`name = value` items of a nested list does not
change the extracted `name = value` pairs. -/
theorem filter_nameValueOf (v : List NestedMetaItem) :
    (v.filter isNameValueItem).filterMap nameValueOf
      = v.filterMap nameValueOf := by
  induction v with
  | nil => rfl
  | cons mi rest ih =>
    cases mi with
    | metaItem m =>
      cases m with
      | word i =>
        simp [List.filter_cons, List.filterMap_cons, isNameValueItem,
          nameValueOf, ih]
      | list i items =>
        simp [List.filter_cons, List.filterMap_cons, isNameValueItem,
          nameValueOf, ih]
      | nameValue i l =>
        simp [List.filter_cons, List.filterMap_cons, isNameValueItem,
          nameValueOf, ih]
    | literal l =>
      simp [List.filter_cons, List.filterMap_cons, isNameValueItem,
        nameValueOf, ih]

/-- C6 counterexample: an attribute list whose `clap(...)` entry holds a
malformed (non-`name = value`) item is silently ignored — the resolver
returns the empty entry list and full compilation succeeds, rather than
failing with `CompileError::AttributeParse`. -/
theorem c6_counterexample :
    extract_attrs
      [⟨AttrStyle.outer, MetaItem.list "clap"
        [NestedMetaItem.metaItem (MetaItem.word "malformed")], false⟩]
      AttrSource.field = [] ∧
    compile ⟨"S", false,
      [⟨AttrStyle.outer, MetaItem.list "clap"
        [NestedMetaItem.metaItem (MetaItem.word "malformed")], false⟩], []⟩
      (fun _ => none)
      = Except.ok ⟨Lit.str "" StrStyle.cooked, Lit.str "" StrStyle.cooked,
          Lit.str "" StrStyle.cooked, Lit.str "" StrStyle.cooked, [], []⟩ :=
  ⟨rfl, rfl⟩

/-- C6 amended: the Attribute Resolver never fails; attribute material it
does not recognise — items inside `clap(...)` that are not `name = value`
pairs, and attributes that are neither `clap(...)` lists nor sugared doc
comments — is silently ignored: scrubbing it away leaves the resolved
list unchanged. -/
theorem c6_amended_malformed_ignored (attrs : List Attribute)
    (src : AttrSource) :
    extract_attrs (attrs.filterMap scrub) src = extract_attrs attrs src := by
  have hdoc : docComments (attrs.filterMap scrub) = docComments attrs := by
    unfold docComments
    rw [List.filterMap_filterMap]
    exact List.filterMap_congr fun a _ => scrub_docOf a
  have hset : settingsAttrs (attrs.filterMap scrub) = settingsAttrs attrs := by
    unfold settingsAttrs
    rw [List.filterMap_filterMap,
      List.filterMap_congr fun a _ => scrub_clapList a,
      ← List.map_filterMap, List.map_map]
    exact congrArg List.flatten
      (List.map_congr_left fun v _ => by
        simp [Function.comp, filter_nameValueOf])
  unfold extract_attrs docEntryList
  rw [hdoc, hset]

/-- C7 counterexample: a `from_os_str` directive with an omitted function
name resolves to the default `::std::convert::From::from` (per the source
documentation table), not to `CompileError::MissingParserFunction` as the
claim states. -/
theorem c7_counterexample :
    resolveParserFn Parser.fromOsStr none
      = Except.ok "::std::convert::From::from" ∧
    resolveParserFn Parser.fromOsStr none
      ≠ Except.error CompileError.missingParserFunction :=
  ⟨rfl, fun h => Except.noConfusion h⟩

/-- C7 amended: among the four parser kinds, only `try_from_os_str` with
an omitted function name fails with `MissingParserFunction`; `from_str`
and `from_os_str` default to `::std::convert::From::from` and
`try_from_str` to `::std::str::FromStr::from_str`. -/
theorem c7_amended_default_functions :
    resolveParserFn Parser.fromStr none
      = Except.ok "::std::convert::From::from" ∧
    resolveParserFn Parser.tryFromStr none
      = Except.ok "::std::str::FromStr::from_str" ∧
    resolveParserFn Parser.fromOsStr none
      = Except.ok "::std::convert::From::from" ∧
    resolveParserFn Parser.tryFromOsStr none
      = Except.error CompileError.missingParserFunction :=
  ⟨rfl, rfl, rfl, rfl⟩

/-- C10 counterexample: a path type *with* a qualified self whose last
segment is named `bool` is classified `Ty.other` (hence Required), not
Flag as the claim predicts for every path whose last segment is `bool`. -/
theorem c10_counterexample :
    ty (SynTy.path true (PathSegment.mk "bool"
      (PathParameters.angleBracketed [])) []) = Ty.other ∧
    cardinality false (SynTy.path true (PathSegment.mk "bool"
      (PathParameters.angleBracketed [])) []) = Cardinality.required ∧
    Cardinality.required ≠ Cardinality.flag :=
  ⟨rfl, rfl, fun h => Cardinality.noConfusion h⟩

/-- C10 amended: classification looks only at the identifier of the final
segment of a path *without a qualified self* — `bool`/`u64`/`Option`/`Vec`
map to their classes regardless of the preceding segments, anything else
to `Ty.other` — while paths with a qualified self and all non-path types
are classified `Ty.other` (Required) with no inner type extracted. -/
theorem c10_amended_last_segment_only (seg0 : PathSegment)
    (rest : List PathSegment) (i : String) (ps : PathParameters)
    (h : lastSeg seg0 rest = PathSegment.mk i ps) :
    (i = "bool" → ty (SynTy.path false seg0 rest) = Ty.bool) ∧
    (i = "u64" → ty (SynTy.path false seg0 rest) = Ty.u64) ∧
    (i = "Option" → ty (SynTy.path false seg0 rest) = Ty.option) ∧
    (i = "Vec" → ty (SynTy.path false seg0 rest) = Ty.vec) ∧
    (i ≠ "bool" → i ≠ "u64" → i ≠ "Option" → i ≠ "Vec" →
      ty (SynTy.path false seg0 rest) = Ty.other) ∧
    (∀ (q0 : PathSegment) (qr : List PathSegment),
      ty (SynTy.path true q0 qr) = Ty.other ∧
      sub_type (SynTy.path true q0 qr) = none) ∧
    (ty SynTy.rptr = Ty.other ∧ sub_type SynTy.rptr = none) ∧
    (ty SynTy.tup = Ty.other ∧ sub_type SynTy.tup = none) ∧
    (ty SynTy.slice = Ty.other ∧ sub_type SynTy.slice = none) ∧
    (ty SynTy.bareFn = Ty.other ∧ sub_type SynTy.bareFn = none) ∧
    (ty SynTy.never = Ty.other ∧ sub_type SynTy.never = none) := by
  refine ⟨?_, ?_, ?_, ?_, ?_, ?_, ?_, ?_, ?_, ?_, ?_⟩
  · intro hb; simp [ty, h, hb]
  · intro hb; simp [ty, h, hb]
  · intro hb; simp [ty, h, hb]
  · intro hb; simp [ty, h, hb]
  · intro h1 h2 h3 h4; simp [ty, h, h1, h2, h3, h4]
  · intro q0 qr; exact ⟨rfl, rfl⟩
  all_goals exact ⟨rfl, rfl⟩

/-- Fuel sufficiency for the tree builder: with the visited set free of
duplicates and within the arena, fuel covering the remaining distinct
items never runs out.  This is the pigeonhole bound of spec §5. -/
theorem buildAux_ne_none (arena : Arena) :
    ∀ (fuel : Nat) (visited : List Nat) (i : Nat), visited.Nodup →
      (∀ v ∈ visited, v < arena.length) →
      arena.length + 1 ≤ fuel + visited.length →
      buildAux arena fuel visited i ≠ none := by
  intro fuel
  induction fuel with
  | zero =>
    intro visited i hnd hlt hle
    exfalso
    have hcard : visited.toFinset.card = visited.length :=
      List.toFinset_card_of_nodup hnd
    have hsub : visited.toFinset ⊆ Finset.range arena.length := by
      intro x hx
      rw [Finset.mem_range]
      exact hlt x (List.mem_toFinset.mp hx)
    have hle2 := Finset.card_le_card hsub
    rw [hcard, Finset.card_range] at hle2
    omega
  | succ fuel ih =>
    intro visited i hnd hlt hle
    unfold buildAux
    by_cases hi : i ∈ visited
    · simp [hi]
    · cases hget : arena[i]? with
      | none => simp [hi, hget]
      | some item =>
        cases hc : item.carrier with
        | none => simp [hi, hget, hc]
        | some j =>
          have hilt : i < arena.length := (List.getElem?_eq_some.mp hget).1
          have hrec := ih (i :: visited) j
            (List.nodup_cons.mpr ⟨hi, hnd⟩)
            (by
              intro v hv
              rcases List.mem_cons.mp hv with hv | hv
              · rw [hv]; exact hilt
              · exact hlt v hv)
            (by simp only [List.length_cons]; omega)
          cases hb : buildAux arena fuel (i :: visited) j with
          | none => exact absurd hb hrec
          | some r => cases r <;> simp [hi, hget, hc, hb]

/-- If following the carrier links from `i` reaches a node already in the
visited set, the builder can only run out of fuel or report
`CyclicSchema`. -/
theorem buildAux_cyclic (arena : Arena) :
    ∀ (k fuel : Nat) (visited : List Nat) (i w : Nat),
      stepN arena k i = some w → w ∈ visited →
      buildAux arena fuel visited i = none ∨
      buildAux arena fuel visited i
        = some (Except.error CompileError.cyclicSchema) := by
  intro k
  induction k with
  | zero =>
    intro fuel visited i w hstep hw
    have hiw : i = w := by simpa [stepN] using hstep
    subst hiw
    cases fuel with
    | zero => left; rfl
    | succ f =>
      right
      unfold buildAux
      simp [hw]
  | succ k ih =>
    intro fuel visited i w hstep hw
    cases hco : carrierOf arena i with
    | none =>
      rw [stepN, hco] at hstep
      exact Option.noConfusion hstep
    | some j =>
      rw [stepN, hco] at hstep
      cases fuel with
      | zero => left; rfl
      | succ f =>
        by_cases hi : i ∈ visited
        · right
          unfold buildAux
          simp [hi]
        · obtain ⟨item, hget, hc⟩ := Option.bind_eq_some.mp hco
          have hrec := ih f (i :: visited) j w hstep
            (List.mem_cons_of_mem _ hw)
          unfold buildAux
          rcases hrec with hr | hr
          · left; simp [hi, hget, hc, hr]
          · right; simp [hi, hget, hc, hr]

/-- C8: compilation terminates — the builder threads a visited set of
SchemaItem identities through its recursion, fuel bounded by the number
of distinct SchemaItems plus one never runs out — and any schema whose
subcommand carrier directly or transitively references itself (the
carrier links lead from `root` back to `root`) fails with
`CompileError::CyclicSchema` instead of looping or overflowing. -/
theorem c8_terminates_and_detects_cycles (arena : Arena) (root : Nat) :
    buildTree arena root ≠ none ∧
    (∀ k, stepN arena (k + 1) root = some root →
      buildTree arena root = some (Except.error CompileError.cyclicSchema))
    := by
  constructor
  · exact buildAux_ne_none arena (arena.length + 1) [] root
      List.nodup_nil (by intro v hv; cases hv) (by simp)
  · intro k hcyc
    cases hco : carrierOf arena root with
    | none =>
      rw [stepN, hco] at hcyc
      exact Option.noConfusion hcyc
    | some j =>
      rw [stepN, hco] at hcyc
      obtain ⟨item, hget, hc⟩ := Option.bind_eq_some.mp hco
      have hrootlt : root < arena.length := (List.getElem?_eq_some.mp hget).1
      have hinner := buildAux_cyclic arena k arena.length [root] j root
        hcyc (by simp)
      have hinner_ne : buildAux arena arena.length [root] j ≠ none :=
        buildAux_ne_none arena arena.length [root] j
          (List.nodup_cons.mpr ⟨by simp, List.nodup_nil⟩)
          (by
            intro v hv
            rcases List.mem_cons.mp hv with hv | hv
            · rw [hv]; exact hrootlt
            · cases hv)
          (by simp)
      rcases hinner with h | h
      · exact absurd h hinner_ne
      · unfold buildTree buildAux
        simp [hget, hc, h]

/-- C8 witness: the one-item arena whose item carries a subcommand link
to itself terminates with `CyclicSchema`. -/
theorem c8_terminates_and_detects_cycles_witness :
    buildTree [⟨true, some 0⟩] 0 ≠ none ∧
    buildTree [⟨true, some 0⟩] 0
      = some (Except.error CompileError.cyclicSchema) :=
  ⟨(c8_terminates_and_detects_cycles [⟨true, some 0⟩] 0).1,
   (c8_terminates_and_detects_cycles [⟨true, some 0⟩] 0).2 0 rfl⟩

/-- The value of `from_attr_or_env` depends on the environment snapshot
only through the consulted variable. -/
theorem from_attr_or_env_snapshot (attrs : List (String × Lit))
    (key envVar : String) (env₁ env₂ : String → Option String)
    (h : env₁ envVar = env₂ envVar) :
    from_attr_or_env attrs key envVar env₁
      = from_attr_or_env attrs key envVar env₂ := by
  unfold from_attr_or_env
  rw [h]

/-- C9: compilation is deterministic and referentially transparent — the
output of `compile` depends on nothing other than the schema and the
values the ambient environment snapshot assigns to the consulted metadata
keys: equal schemas and snapshots agreeing on those keys give equal
outputs. -/
theorem c9_compile_depends_only_on_inputs (s₁ s₂ : SchemaInput)
    (env₁ env₂ : String → Option String) (hs : s₁ = s₂)
    (henv : ∀ k ∈ consultedEnvKeys, env₁ k = env₂ k) :
    compile s₁ env₁ = compile s₂ env₂ := by
  subst hs
  have h1 := henv "CARGO_PKG_NAME" (by simp [consultedEnvKeys])
  have h2 := henv "CARGO_PKG_VERSION" (by simp [consultedEnvKeys])
  have h3 := henv "CARGO_PKG_AUTHORS" (by simp [consultedEnvKeys])
  have h4 := henv "CARGO_PKG_DESCRIPTION" (by simp [consultedEnvKeys])
  unfold compile from_attr_or_env
  simp only [h1, h2, h3, h4]

/-- C9 witness: two snapshots that agree on the consulted keys but differ
elsewhere (here on `HOME`) compile a concrete schema identically. -/
theorem c9_compile_depends_only_on_inputs_witness :
    compile ⟨"S", false, [], []⟩
      (fun k => if k = "HOME" then some "/root" else none)
      = compile ⟨"S", false, [], []⟩ (fun _ => none) :=
  c9_compile_depends_only_on_inputs ⟨"S", false, [], []⟩
    ⟨"S", false, [], []⟩
    (fun k => if k = "HOME" then some "/root" else none) (fun _ => none)
    rfl (by intro k hk; fin_cases hk <;> rfl)

/-- C10 amended witness: the multi-segment path `std::vec::Vec<T>` is
classified `Ty.vec` by its last segment alone. -/
theorem c10_amended_last_segment_only_witness :
    ty (SynTy.path false (PathSegment.mk "std"
      (PathParameters.angleBracketed []))
      [PathSegment.mk "vec" (PathParameters.angleBracketed []),
       PathSegment.mk "Vec" (PathParameters.angleBracketed
         [SynTy.path false (PathSegment.mk "T"
           (PathParameters.angleBracketed [])) []])]) = Ty.vec :=
  ((c10_amended_last_segment_only (PathSegment.mk "std"
      (PathParameters.angleBracketed []))
      [PathSegment.mk "vec" (PathParameters.angleBracketed []),
       PathSegment.mk "Vec" (PathParameters.angleBracketed
         [SynTy.path false (PathSegment.mk "T"
           (PathParameters.angleBracketed [])) []])]
      "Vec" (PathParameters.angleBracketed
        [SynTy.path false (PathSegment.mk "T"
          (PathParameters.angleBracketed [])) []]) rfl).2.2.2.1) rfl

end ClapDerive
